import Mathlib

/-!
Verification of the QwertyGhost keyboard visualizer.

The development shallowly embeds the state and the pure logic of the two
source files (`src/full_board.cpp` and the related file
`with numbers and functions.cpp` in `src/unnamed/part_000`).  Scalar
quantities that the program stores in `float`/`double` are modelled as
rationals, so every arithmetic step of the source is reproduced exactly.
Stateful callbacks become pure functions from the touched globals to their
new values together with the number of sound-player subprocesses spawned.
-/

namespace QwertyGhost

/-- Constant from full_board.cpp line 24: seconds for the press animation. -/
def PRESS_FEEDBACK_DURATION : ℚ := 15/100

/-- Constant from full_board.cpp line 19. -/
def KEY_WIDTH : ℚ := 60

/-- Constant from full_board.cpp line 20. -/
def KEY_HEIGHT : ℚ := 60

/-- Constant from full_board.cpp line 21. -/
def KEY_SPACING_X : ℚ := 6

/-- Constant from full_board.cpp line 22. -/
def KEY_SPACING_Y : ℚ := 6

/-- Constant from full_board.cpp line 23. -/
def KEY_DEPTH : ℚ := 18

/-- Key categories, from `enum class KeyType` in full_board.cpp. -/
inductive KeyType where
  | ALPHANUM
  | FUNCTION
  | MODIFIER
  | NAVIGATION
  | ARROW
  | NUMPAD
  | BACKGROUND_ONLY
  deriving DecidableEq

/-- The `Key` structure of full_board.cpp (lines 99-107): a labelled
rectangle (top-left corner `pos`, extent `size`) with the animated
press scalar `pressAnim`, the logical press flag and the keycap-removed
flag.  The simpler `Key` of part_000 is the same record with the extra
fields unused. -/
structure Key where
  label : String
  posX : ℚ
  posY : ℚ
  sizeX : ℚ
  sizeY : ℚ
  pressAnim : ℚ := 0
  isPressed : Bool := false
  keycapRemoved : Bool := false
  type : KeyType := KeyType.ALPHANUM
  deriving DecidableEq

instance : Inhabited Key :=
  ⟨{ label := "", posX := 0, posY := 0, sizeX := 0, sizeY := 0 }⟩

/-- Translation of `updateKeyAnimation` (full_board.cpp lines 332-343;
the identical function appears at part_000 lines 249-262).  The source
mutates `key.pressAnim` and then clamps; the embedding returns the
updated key. -/
def updateKeyAnimation (key : Key) (deltaTime : ℚ) : Key :=
  let animSpeed : ℚ := (1/2) / PRESS_FEEDBACK_DURATION
  let target : ℚ := if key.isPressed then 1/2 else 0
  if key.pressAnim < target then
    let q := key.pressAnim + animSpeed * deltaTime
    { key with pressAnim := if target < q then target else q }
  else if target < key.pressAnim then
    let q := key.pressAnim - animSpeed * deltaTime
    { key with pressAnim := if q < target then target else q }
  else key

/-- Record-update projection helper. -/
lemma setPress_pressAnim (k : Key) (e : ℚ) :
    ({ k with pressAnim := e } : Key).pressAnim = e := rfl

/-- Closed form of `updateKeyAnimation`: the press scalar moves by
`animSpeed * deltaTime` toward the target and is clamped (min/max) at
the target; no other field changes. -/
lemma updateKeyAnimation_eq (key : Key) (dt : ℚ) :
    updateKeyAnimation key dt =
      { key with pressAnim :=
          if key.pressAnim < (if key.isPressed then (1/2 : ℚ) else 0) then
            (min (key.pressAnim + ((1/2) / PRESS_FEEDBACK_DURATION) * dt)
              (if key.isPressed then (1/2 : ℚ) else 0))
          else if (if key.isPressed then (1/2 : ℚ) else 0) < key.pressAnim then
            (max (key.pressAnim - ((1/2) / PRESS_FEEDBACK_DURATION) * dt)
              (if key.isPressed then (1/2 : ℚ) else 0))
          else key.pressAnim } := by
  simp only [updateKeyAnimation]
  by_cases h1 : key.pressAnim < (if key.isPressed then (1/2 : ℚ) else 0)
  · simp only [if_pos h1]
    rcases lt_or_le (if key.isPressed then (1/2 : ℚ) else 0)
        (key.pressAnim + ((1/2) / PRESS_FEEDBACK_DURATION) * dt) with hc | hc
    · rw [if_pos hc, min_eq_right hc.le]
    · rw [if_neg (not_lt.mpr hc), min_eq_left hc]
  · by_cases h2 : (if key.isPressed then (1/2 : ℚ) else 0) < key.pressAnim
    · simp only [if_neg h1, if_pos h2]
      rcases lt_or_le (key.pressAnim - ((1/2) / PRESS_FEEDBACK_DURATION) * dt)
          (if key.isPressed then (1/2 : ℚ) else 0) with hc | hc
      · rw [if_pos hc, max_eq_right hc.le]
      · rw [if_neg (not_lt.mpr hc), max_eq_left hc]
    · simp only [if_neg h1, if_neg h2]

/-- C1: for every key and every deltaTime ≥ 0, if `pressAnim` lies in
[0, 1/2] before `updateKeyAnimation` then it still lies in [0, 1/2]
afterwards — never negative, never above the 1/2 cap. -/
theorem pressAnim_stays_in_range (key : Key) (dt : ℚ) (hdt : 0 ≤ dt)
    (h0 : 0 ≤ key.pressAnim) (h1 : key.pressAnim ≤ 1/2) :
    0 ≤ (updateKeyAnimation key dt).pressAnim ∧
      (updateKeyAnimation key dt).pressAnim ≤ 1/2 := by
  have hs : (0:ℚ) ≤ ((1/2) / PRESS_FEEDBACK_DURATION) * dt :=
    mul_nonneg (by norm_num [PRESS_FEEDBACK_DURATION]) hdt
  rw [updateKeyAnimation_eq, setPress_pressAnim]
  constructor <;> split_ifs <;>
    (try simp only [le_min_iff, min_le_iff, le_max_iff, max_le_iff]) <;>
      first
        | (constructor <;> linarith)
        | (left; linarith)
        | (right; linarith)
        | linarith

/-- Concrete key used by witnesses: mid-animation, pressed. -/
def sampleKeyA : Key :=
  { label := "A", posX := 0, posY := 0, sizeX := 60, sizeY := 60,
    pressAnim := 1/4, isPressed := true }

/-- Concrete key used by witnesses: fully pressed scalar, released flag. -/
def sampleKeyB : Key :=
  { label := "B", posX := 0, posY := 0, sizeX := 60, sizeY := 60,
    pressAnim := 1/2, isPressed := false }

theorem pressAnim_stays_in_range_witness :
    (0:ℚ) ≤ 1/100 ∧ (0:ℚ) ≤ sampleKeyA.pressAnim ∧ sampleKeyA.pressAnim ≤ 1/2 ∧
      (0 ≤ (updateKeyAnimation sampleKeyA (1/100)).pressAnim ∧
        (updateKeyAnimation sampleKeyA (1/100)).pressAnim ≤ 1/2) :=
  ⟨by norm_num, by norm_num [sampleKeyA], by norm_num [sampleKeyA],
    pressAnim_stays_in_range _ _ (by norm_num) (by norm_num [sampleKeyA])
      (by norm_num [sampleKeyA])⟩

/-- C2: `updateKeyAnimation` moves `pressAnim` toward
`target = if isPressed then 1/2 else 0` by exactly
`(1/2) / PRESS_FEEDBACK_DURATION × deltaTime` (the rate is 10/3 per
second), clamping exactly at the target on a step that would cross it
(captured by `min`/`max`, so it never overshoots), changes no other
field, and leaves the key unchanged when `pressAnim` already equals the
target or when `deltaTime` is zero. -/
theorem updateKeyAnimation_spec (key : Key) (dt : ℚ) (hdt : 0 ≤ dt) :
    ((1/2 : ℚ) / PRESS_FEEDBACK_DURATION = 10/3) ∧
      updateKeyAnimation key dt =
        { key with pressAnim :=
            if key.pressAnim < (if key.isPressed then (1/2 : ℚ) else 0) then
              (min (key.pressAnim + ((1/2) / PRESS_FEEDBACK_DURATION) * dt)
                (if key.isPressed then (1/2 : ℚ) else 0))
            else if (if key.isPressed then (1/2 : ℚ) else 0) < key.pressAnim then
              (max (key.pressAnim - ((1/2) / PRESS_FEEDBACK_DURATION) * dt)
                (if key.isPressed then (1/2 : ℚ) else 0))
            else key.pressAnim } ∧
      (key.pressAnim = (if key.isPressed then (1/2 : ℚ) else 0) →
        updateKeyAnimation key dt = key) ∧
      updateKeyAnimation key 0 = key := by
  refine ⟨by norm_num [PRESS_FEEDBACK_DURATION], updateKeyAnimation_eq key dt, ?_, ?_⟩
  · intro h
    simp only [updateKeyAnimation, h, lt_self_iff_false, if_false]
  · simp only [updateKeyAnimation, mul_zero, add_zero, sub_zero]
    split_ifs <;> first | rfl | (exfalso; linarith)

theorem updateKeyAnimation_spec_witness :
    (0:ℚ) ≤ 1/50 ∧
      (((1/2 : ℚ) / PRESS_FEEDBACK_DURATION = 10/3) ∧
        updateKeyAnimation sampleKeyB (1/50) =
          { sampleKeyB with pressAnim :=
              if sampleKeyB.pressAnim <
                  (if sampleKeyB.isPressed then (1/2 : ℚ) else 0) then
                (min (sampleKeyB.pressAnim + ((1/2) / PRESS_FEEDBACK_DURATION) * (1/50))
                  (if sampleKeyB.isPressed then (1/2 : ℚ) else 0))
              else if (if sampleKeyB.isPressed then (1/2 : ℚ) else 0) <
                  sampleKeyB.pressAnim then
                (max (sampleKeyB.pressAnim - ((1/2) / PRESS_FEEDBACK_DURATION) * (1/50))
                  (if sampleKeyB.isPressed then (1/2 : ℚ) else 0))
              else sampleKeyB.pressAnim } ∧
        ((sampleKeyB.pressAnim = (if sampleKeyB.isPressed then (1/2 : ℚ) else 0)) →
          updateKeyAnimation sampleKeyB (1/50) = sampleKeyB) ∧
        updateKeyAnimation sampleKeyB 0 = sampleKeyB) :=
  ⟨by norm_num, updateKeyAnimation_spec _ _ (by norm_num)⟩

/-- A vertex submitted by `glVertex3f`. -/
structure Vec3 where
  x : ℚ
  y : ℚ
  z : ℚ
  deriving DecidableEq

/-- A quad submitted by one `glBegin(GL_QUADS) … glEnd()` block. -/
structure Quad where
  a : Vec3
  b : Vec3
  c : Vec3
  d : Vec3
  deriving DecidableEq

/-- The five faces emitted by `drawKeycap3D` (full_board.cpp lines
203-260), with the constant `KEY_DEPTH` abstracted as the parameter
`depth` so the geometric relations can be stated for every extrusion
depth; `drawKeycap3D` below instantiates `depth := KEY_DEPTH` exactly
as the source does.  Face order: FRONT, TOP, RIGHT, BOTTOM, LEFT. -/
def keycapFacesAt (bx y0 bw bh depth p : ℚ) : List Quad :=
  let shiftLeft := 10 * p
  let shiftUp := 10 * p
  let pressOffsetZ := depth * p
  let newDepth := depth * (1 - (1/2) * p)
  let x := bx - shiftLeft
  let y := y0 - shiftUp
  [ ⟨⟨x, y, -pressOffsetZ⟩, ⟨x + bw, y, -pressOffsetZ⟩,
      ⟨x + bw, y + bh, -pressOffsetZ⟩, ⟨x, y + bh, -pressOffsetZ⟩⟩,
    ⟨⟨x, y, -pressOffsetZ⟩, ⟨x + bw, y, -pressOffsetZ⟩,
      ⟨x + bw - newDepth, y - newDepth, -(pressOffsetZ + newDepth)⟩,
      ⟨x - newDepth, y - newDepth, -(pressOffsetZ + newDepth)⟩⟩,
    ⟨⟨x + bw, y, -pressOffsetZ⟩, ⟨x + bw, y + bh, -pressOffsetZ⟩,
      ⟨x + bw - newDepth, y + bh - newDepth, -(pressOffsetZ + newDepth)⟩,
      ⟨x + bw - newDepth, y - newDepth, -(pressOffsetZ + newDepth)⟩⟩,
    ⟨⟨x, y + bh, -pressOffsetZ⟩, ⟨x + bw, y + bh, -pressOffsetZ⟩,
      ⟨x + bw - newDepth, y + bh - newDepth, -(pressOffsetZ + newDepth)⟩,
      ⟨x - newDepth, y + bh - newDepth, -(pressOffsetZ + newDepth)⟩⟩,
    ⟨⟨x, y, -pressOffsetZ⟩, ⟨x, y + bh, -pressOffsetZ⟩,
      ⟨x - newDepth, y + bh - newDepth, -(pressOffsetZ + newDepth)⟩,
      ⟨x - newDepth, y - newDepth, -(pressOffsetZ + newDepth)⟩⟩ ]

/-- Translation of `drawKeycap3D` (full_board.cpp lines 203-260): the
faces of the keycap of `key`, drawn with the fixed extrusion depth
`KEY_DEPTH`. -/
def drawKeycap3D (key : Key) : List Quad :=
  keycapFacesAt key.posX key.posY key.sizeX key.sizeY KEY_DEPTH key.pressAnim

/-- C3: for every rectangle, depth and press scalar p in [0, 1/2], the
keycap builder shifts the front face by exactly 10·p in both x and y,
recesses it by pressOffsetZ = depth·p, and attaches the four side faces
at the remaining compressed depth depth·(1 − 0.5·p); `drawKeycap3D`
is this geometry at depth `KEY_DEPTH`. -/
theorem drawKeycap3D_geometry (bx y0 bw bh depth p : ℚ)
    (hp0 : 0 ≤ p) (hp1 : p ≤ 1/2) :
    keycapFacesAt bx y0 bw bh depth p =
      [ ⟨⟨bx - 10 * p, y0 - 10 * p, -(depth * p)⟩,
          ⟨bx + bw - 10 * p, y0 - 10 * p, -(depth * p)⟩,
          ⟨bx + bw - 10 * p, y0 + bh - 10 * p, -(depth * p)⟩,
          ⟨bx - 10 * p, y0 + bh - 10 * p, -(depth * p)⟩⟩,
        ⟨⟨bx - 10 * p, y0 - 10 * p, -(depth * p)⟩,
          ⟨bx + bw - 10 * p, y0 - 10 * p, -(depth * p)⟩,
          ⟨bx + bw - 10 * p - depth * (1 - 0.5 * p),
            y0 - 10 * p - depth * (1 - 0.5 * p),
            -(depth * p + depth * (1 - 0.5 * p))⟩,
          ⟨bx - 10 * p - depth * (1 - 0.5 * p),
            y0 - 10 * p - depth * (1 - 0.5 * p),
            -(depth * p + depth * (1 - 0.5 * p))⟩⟩,
        ⟨⟨bx + bw - 10 * p, y0 - 10 * p, -(depth * p)⟩,
          ⟨bx + bw - 10 * p, y0 + bh - 10 * p, -(depth * p)⟩,
          ⟨bx + bw - 10 * p - depth * (1 - 0.5 * p),
            y0 + bh - 10 * p - depth * (1 - 0.5 * p),
            -(depth * p + depth * (1 - 0.5 * p))⟩,
          ⟨bx + bw - 10 * p - depth * (1 - 0.5 * p),
            y0 - 10 * p - depth * (1 - 0.5 * p),
            -(depth * p + depth * (1 - 0.5 * p))⟩⟩,
        ⟨⟨bx - 10 * p, y0 + bh - 10 * p, -(depth * p)⟩,
          ⟨bx + bw - 10 * p, y0 + bh - 10 * p, -(depth * p)⟩,
          ⟨bx + bw - 10 * p - depth * (1 - 0.5 * p),
            y0 + bh - 10 * p - depth * (1 - 0.5 * p),
            -(depth * p + depth * (1 - 0.5 * p))⟩,
          ⟨bx - 10 * p - depth * (1 - 0.5 * p),
            y0 + bh - 10 * p - depth * (1 - 0.5 * p),
            -(depth * p + depth * (1 - 0.5 * p))⟩⟩,
        ⟨⟨bx - 10 * p, y0 - 10 * p, -(depth * p)⟩,
          ⟨bx - 10 * p, y0 + bh - 10 * p, -(depth * p)⟩,
          ⟨bx - 10 * p - depth * (1 - 0.5 * p),
            y0 + bh - 10 * p - depth * (1 - 0.5 * p),
            -(depth * p + depth * (1 - 0.5 * p))⟩,
          ⟨bx - 10 * p - depth * (1 - 0.5 * p),
            y0 - 10 * p - depth * (1 - 0.5 * p),
            -(depth * p + depth * (1 - 0.5 * p))⟩⟩ ] ∧
      (∀ key : Key, drawKeycap3D key =
        keycapFacesAt key.posX key.posY key.sizeX key.sizeY KEY_DEPTH key.pressAnim) := by
  constructor
  · simp only [keycapFacesAt, List.cons.injEq, and_true, Quad.mk.injEq, Vec3.mk.injEq]
    norm_num
    refine ⟨?_, ?_, ?_, ?_, ?_⟩ <;> norm_num <;> ring_nf <;> norm_num
  · intro key
    rfl

theorem drawKeycap3D_geometry_witness :
    (0:ℚ) ≤ 1/4 ∧ (1/4:ℚ) ≤ 1/2 ∧
      (keycapFacesAt 7 11 60 60 18 (1/4) =
          [ ⟨⟨7 - 10 * (1/4), 11 - 10 * (1/4), -(18 * (1/4))⟩,
              ⟨7 + 60 - 10 * (1/4), 11 - 10 * (1/4), -(18 * (1/4))⟩,
              ⟨7 + 60 - 10 * (1/4), 11 + 60 - 10 * (1/4), -(18 * (1/4))⟩,
              ⟨7 - 10 * (1/4), 11 + 60 - 10 * (1/4), -(18 * (1/4))⟩⟩,
            ⟨⟨7 - 10 * (1/4), 11 - 10 * (1/4), -(18 * (1/4))⟩,
              ⟨7 + 60 - 10 * (1/4), 11 - 10 * (1/4), -(18 * (1/4))⟩,
              ⟨7 + 60 - 10 * (1/4) - 18 * (1 - 0.5 * (1/4)),
                11 - 10 * (1/4) - 18 * (1 - 0.5 * (1/4)),
                -(18 * (1/4) + 18 * (1 - 0.5 * (1/4)))⟩,
              ⟨7 - 10 * (1/4) - 18 * (1 - 0.5 * (1/4)),
                11 - 10 * (1/4) - 18 * (1 - 0.5 * (1/4)),
                -(18 * (1/4) + 18 * (1 - 0.5 * (1/4)))⟩⟩,
            ⟨⟨7 + 60 - 10 * (1/4), 11 - 10 * (1/4), -(18 * (1/4))⟩,
              ⟨7 + 60 - 10 * (1/4), 11 + 60 - 10 * (1/4), -(18 * (1/4))⟩,
              ⟨7 + 60 - 10 * (1/4) - 18 * (1 - 0.5 * (1/4)),
                11 + 60 - 10 * (1/4) - 18 * (1 - 0.5 * (1/4)),
                -(18 * (1/4) + 18 * (1 - 0.5 * (1/4)))⟩,
              ⟨7 + 60 - 10 * (1/4) - 18 * (1 - 0.5 * (1/4)),
                11 - 10 * (1/4) - 18 * (1 - 0.5 * (1/4)),
                -(18 * (1/4) + 18 * (1 - 0.5 * (1/4)))⟩⟩,
            ⟨⟨7 - 10 * (1/4), 11 + 60 - 10 * (1/4), -(18 * (1/4))⟩,
              ⟨7 + 60 - 10 * (1/4), 11 + 60 - 10 * (1/4), -(18 * (1/4))⟩,
              ⟨7 + 60 - 10 * (1/4) - 18 * (1 - 0.5 * (1/4)),
                11 + 60 - 10 * (1/4) - 18 * (1 - 0.5 * (1/4)),
                -(18 * (1/4) + 18 * (1 - 0.5 * (1/4)))⟩,
              ⟨7 - 10 * (1/4) - 18 * (1 - 0.5 * (1/4)),
                11 + 60 - 10 * (1/4) - 18 * (1 - 0.5 * (1/4)),
                -(18 * (1/4) + 18 * (1 - 0.5 * (1/4)))⟩⟩,
            ⟨⟨7 - 10 * (1/4), 11 - 10 * (1/4), -(18 * (1/4))⟩,
              ⟨7 - 10 * (1/4), 11 + 60 - 10 * (1/4), -(18 * (1/4))⟩,
              ⟨7 - 10 * (1/4) - 18 * (1 - 0.5 * (1/4)),
                11 + 60 - 10 * (1/4) - 18 * (1 - 0.5 * (1/4)),
                -(18 * (1/4) + 18 * (1 - 0.5 * (1/4)))⟩,
              ⟨7 - 10 * (1/4) - 18 * (1 - 0.5 * (1/4)),
                11 - 10 * (1/4) - 18 * (1 - 0.5 * (1/4)),
                -(18 * (1/4) + 18 * (1 - 0.5 * (1/4)))⟩⟩ ] ∧
        (∀ key : Key, drawKeycap3D key =
          keycapFacesAt key.posX key.posY key.sizeX key.sizeY KEY_DEPTH key.pressAnim)) :=
  ⟨by norm_num, by norm_num, drawKeycap3D_geometry 7 11 60 60 18 (1/4) (by norm_num) (by norm_num)⟩

/-- GLFW action code, glfw3.h. -/
def GLFW_RELEASE : Int := 0

/-- GLFW action code, glfw3.h. -/
def GLFW_PRESS : Int := 1

/-- GLFW action code, glfw3.h. -/
def GLFW_REPEAT : Int := 2

/-- GLFW mouse button code, glfw3.h. -/
def GLFW_MOUSE_BUTTON_LEFT : Int := 0

/-- GLFW mouse button code, glfw3.h. -/
def GLFW_MOUSE_BUTTON_RIGHT : Int := 1

/-- The two globals written by the layout code of full_board.cpp:
`keyboardKeys` (the ordered key slots) and `glfwKeyToIndex` (the
`std::map<int,int>` from GLFW keycode to slot index, modelled as an
association list with unique keys). -/
structure LayoutState where
  keyboardKeys : List Key
  glfwKeyToIndex : List (Int × Nat)
  deriving DecidableEq

/-- Assignment `m[k] = v` of `std::map::operator[]`: overwrite the value
if the key is present, otherwise insert a new entry. -/
def mapAssign : List (Int × Nat) → Int → Nat → List (Int × Nat)
  | [], k, v => [(k, v)]
  | p :: rest, k, v => if p.1 = k then (k, v) :: rest else p :: mapAssign rest k v

/-- Lookup in the association-list model of `std::map<int,int>`. -/
def mapLookup : List (Int × Nat) → Int → Option Nat
  | [], _ => none
  | (a, v) :: rest, k => if k = a then some v else mapLookup rest k

/-- Translation of `addKey` (full_board.cpp lines 346-359): append a key
slot and, when `glfwKey ≠ -1`, record keycode ↦ new slot index. -/
def addKey (st : LayoutState) (label : String) (x y w h : ℚ)
    (kt : KeyType) (glfwKey : Int) : LayoutState :=
  let keys := st.keyboardKeys ++
    [{ label := label, posX := x, posY := y, sizeX := w, sizeY := h, type := kt }]
  if glfwKey ≠ -1 then
    ⟨keys, mapAssign st.glfwKeyToIndex glfwKey (keys.length - 1)⟩
  else
    ⟨keys, st.glfwKeyToIndex⟩

/-- One uniform-width row loop of `initKeyboardLayout`: add each
(label, keycode) pair at the running x, advancing by
`KEY_WIDTH + KEY_SPACING_X`; returns the state and the final x. -/
def addKeysRow : LayoutState → List (String × Int) → KeyType → ℚ → ℚ →
    LayoutState × ℚ
  | st, [], _, currentX, _ => (st, currentX)
  | st, (lab, code) :: rest, kt, currentX, y =>
      addKeysRow (addKey st lab currentX y KEY_WIDTH KEY_HEIGHT kt code) rest kt
        (currentX + KEY_WIDTH + KEY_SPACING_X) y

/-- F-key row of full_board.cpp lines 377-381 (GLFW_KEY_F1..F12 = 290..301). -/
def fRow : List (String × Int) :=
  [("F1", 290), ("F2", 291), ("F3", 292), ("F4", 293), ("F5", 294), ("F6", 295),
   ("F7", 296), ("F8", 297), ("F9", 298), ("F10", 299), ("F11", 300), ("F12", 301)]

/-- Number row of full_board.cpp lines 386-392; printable keys carry
their ASCII code (grave accent 96, digits 48-57, minus 45, equal 61). -/
def row2 : List (String × Int) :=
  [("`", 96), ("1", 49), ("2", 50), ("3", 51), ("4", 52), ("5", 53), ("6", 54),
   ("7", 55), ("8", 56), ("9", 57), ("0", 48), ("-", 45), ("=", 61)]

/-- QWERTY row of full_board.cpp lines 402-407 (letters = ASCII,
left bracket 91, right bracket 93). -/
def row3 : List (String × Int) :=
  [("Q", 81), ("W", 87), ("E", 69), ("R", 82), ("T", 84), ("Y", 89), ("U", 85),
   ("I", 73), ("O", 79), ("P", 80), ("[", 91), ("]", 93)]

/-- Home row of full_board.cpp lines 416-421 (semicolon 59, apostrophe 39). -/
def row4 : List (String × Int) :=
  [("A", 65), ("S", 83), ("D", 68), ("F", 70), ("G", 71), ("H", 72), ("J", 74),
   ("K", 75), ("L", 76), (";", 59), ("\x27", 39)]

/-- Letter part of the shift row, full_board.cpp lines 434-438. -/
def row5 : List (String × Int) :=
  [("Z", 90), ("X", 88), ("C", 67), ("V", 86), ("B", 66), ("N", 78), ("M", 77)]

/-- Translation of `initKeyboardLayout` (full_board.cpp lines 364-489),
with the globals `g_mainStartX`/`g_mainStartY` as the parameters
`startX`/`startY`.  Modifier keycodes: backspace 259, shifts 340/344,
ctrl 341/345, alt 342/346, space 32, arrows left/down/right/up
263/264/262/265, nav insert/home/pageup/delete/end/pagedown
260/268/266/261/269/267, escape 256. -/
def initKeyboardLayout (startX startY : ℚ) : LayoutState :=
  let st : LayoutState := ⟨[], []⟩
  -- Row 1: Esc + F-keys
  let st := addKey st "Esc" startX startY KEY_WIDTH KEY_HEIGHT KeyType.FUNCTION 256
  let r1 := addKeysRow st fRow KeyType.FUNCTION (startX + KEY_WIDTH + KEY_SPACING_X) startY
  let st := r1.1
  -- Row 2: number row and Backspace
  let y2 := startY + KEY_HEIGHT + KEY_SPACING_Y
  let r2 := addKeysRow st row2 KeyType.ALPHANUM startX y2
  let st := addKey r2.1 "Backspace" r2.2 y2 (KEY_WIDTH * (3/2)) KEY_HEIGHT KeyType.MODIFIER 259
  -- Row 3: QWERTY row
  let y3 := y2 + KEY_HEIGHT + KEY_SPACING_Y
  let r3 := addKeysRow st row3 KeyType.ALPHANUM startX y3
  let st := r3.1
  -- Row 4: ASDF row
  let y4 := y3 + KEY_HEIGHT + KEY_SPACING_Y
  let r4 := addKeysRow st row4 KeyType.ALPHANUM startX y4
  let st := r4.1
  -- Row 5: Shift row
  let y5 := y4 + KEY_HEIGHT + KEY_SPACING_Y
  let st := addKey st "Shift" startX y5 (KEY_WIDTH * (3/2)) KEY_HEIGHT KeyType.MODIFIER 340
  let r5 := addKeysRow st row5 KeyType.ALPHANUM (startX + KEY_WIDTH * (3/2) + KEY_SPACING_X) y5
  let st := addKey r5.1 "Shift" r5.2 y5 (KEY_WIDTH * (3/2)) KEY_HEIGHT KeyType.MODIFIER 344
  -- Row 6: bottom row Ctrl, Alt, Space, Alt, Ctrl
  let bottomRowY := y5 + KEY_HEIGHT + KEY_SPACING_Y
  let cx0 := startX
  let st := addKey st "Ctrl" cx0 bottomRowY (KEY_WIDTH * (6/5)) KEY_HEIGHT KeyType.MODIFIER 341
  let cx1 := cx0 + KEY_WIDTH * (6/5) + KEY_SPACING_X
  let st := addKey st "Alt" cx1 bottomRowY KEY_WIDTH KEY_HEIGHT KeyType.MODIFIER 342
  let cx2 := cx1 + KEY_WIDTH + KEY_SPACING_X
  let st := addKey st "Space" cx2 bottomRowY (KEY_WIDTH * 6) KEY_HEIGHT KeyType.ALPHANUM 32
  let cx3 := cx2 + KEY_WIDTH * 6 + KEY_SPACING_X
  let st := addKey st "Alt" cx3 bottomRowY KEY_WIDTH KEY_HEIGHT KeyType.MODIFIER 346
  let cx4 := cx3 + KEY_WIDTH + KEY_SPACING_X
  let st := addKey st "Ctrl" cx4 bottomRowY (KEY_WIDTH * (6/5)) KEY_HEIGHT KeyType.MODIFIER 345
  -- Arrow keys, inverted T
  let arrowBlockX := startX + 948 + KEY_SPACING_X * 10
  let arrowRowY := bottomRowY
  let arrowUpY := arrowRowY - (KEY_HEIGHT + KEY_SPACING_Y)
  let st := addKey st "Left" arrowBlockX arrowRowY KEY_WIDTH KEY_HEIGHT KeyType.ARROW 263
  let st := addKey st "Down" (arrowBlockX + (KEY_WIDTH + KEY_SPACING_X)) arrowRowY KEY_WIDTH KEY_HEIGHT KeyType.ARROW 264
  let st := addKey st "Right" (arrowBlockX + 2 * (KEY_WIDTH + KEY_SPACING_X)) arrowRowY KEY_WIDTH KEY_HEIGHT KeyType.ARROW 262
  let st := addKey st "Up" (arrowBlockX + (KEY_WIDTH + KEY_SPACING_X)) arrowUpY KEY_WIDTH KEY_HEIGHT KeyType.ARROW 265
  -- Navigation keys
  let navBlockX := arrowBlockX
  let navBlockY2 := arrowUpY - 2 * (KEY_HEIGHT + KEY_SPACING_Y)
  let navBlockY1 := navBlockY2 - (KEY_HEIGHT + KEY_SPACING_Y)
  let st := addKey st "Ins" navBlockX navBlockY1 KEY_WIDTH KEY_HEIGHT KeyType.NAVIGATION 260
  let st := addKey st "Home" (navBlockX + (KEY_WIDTH + KEY_SPACING_X)) navBlockY1 KEY_WIDTH KEY_HEIGHT KeyType.NAVIGATION 268
  let st := addKey st "PgUp" (navBlockX + 2 * (KEY_WIDTH + KEY_SPACING_X)) navBlockY1 KEY_WIDTH KEY_HEIGHT KeyType.NAVIGATION 266
  let st := addKey st "Del" navBlockX navBlockY2 KEY_WIDTH KEY_HEIGHT KeyType.NAVIGATION 261
  let st := addKey st "End" (navBlockX + (KEY_WIDTH + KEY_SPACING_X)) navBlockY2 KEY_WIDTH KEY_HEIGHT KeyType.NAVIGATION 269
  let st := addKey st "PgDn" (navBlockX + 2 * (KEY_WIDTH + KEY_SPACING_X)) navBlockY2 KEY_WIDTH KEY_HEIGHT KeyType.NAVIGATION 267
  st

/-- Successful lookup implies membership in the association list. -/
lemma mapLookup_mem {m : List (Int × Nat)} {k : Int} {v : Nat}
    (h : mapLookup m k = some v) : (k, v) ∈ m := by
  induction m with
  | nil => simp [mapLookup] at h
  | cons p rest ih =>
    obtain ⟨a, w⟩ := p
    by_cases hk : k = a
    · subst hk
      simp [mapLookup] at h
      subst h
      exact List.mem_cons_self _ _
    · simp only [mapLookup, if_neg hk] at h
      exact List.mem_cons_of_mem _ (ih h)

/-- If the values of an association list are pairwise distinct, lookup
is injective on keys. -/
lemma mapLookup_inj_of_nodup {m : List (Int × Nat)}
    (hnd : (m.map Prod.snd).Nodup) {k1 k2 : Int} {v : Nat}
    (h1 : mapLookup m k1 = some v) (h2 : mapLookup m k2 = some v) : k1 = k2 := by
  have m1 := mapLookup_mem h1
  have m2 := mapLookup_mem h2
  have heq : ((k1, v) : Int × Nat) = (k2, v) :=
    List.inj_on_of_nodup_map hnd m1 m2 rfl
  exact congrArg Prod.fst heq

/-- Two layout states agreeing on the keycode map and the number of
slots; the geometry arguments of the layout never influence either. -/
def MapEq (s t : LayoutState) : Prop :=
  s.glfwKeyToIndex = t.glfwKeyToIndex ∧
    s.keyboardKeys.length = t.keyboardKeys.length

lemma MapEq_addKey {s t : LayoutState} (h : MapEq s t)
    (lab : String) (x y w hh x2 y2 w2 h2 : ℚ) (kt : KeyType) (code : Int) :
    MapEq (addKey s lab x y w hh kt code) (addKey t lab x2 y2 w2 h2 kt code) := by
  obtain ⟨hm, hl⟩ := h
  unfold addKey
  by_cases hc : code ≠ -1
  · simp only [if_pos hc]
    refine ⟨?_, by simp [hl]⟩
    simp [hm, hl]
  · simp only [if_neg hc]
    exact ⟨hm, by simp [hl]⟩

lemma MapEq_addKeysRow {s t : LayoutState} (h : MapEq s t)
    (row : List (String × Int)) (kt : KeyType) (x y x2 y2 : ℚ) :
    MapEq (addKeysRow s row kt x y).1 (addKeysRow t row kt x2 y2).1 := by
  induction row generalizing s t x x2 with
  | nil => exact h
  | cons p rest ih =>
    obtain ⟨lab, code⟩ := p
    exact ih (MapEq_addKey h lab _ _ _ _ _ _ _ _ kt code) _ _

set_option maxRecDepth 100000 in
set_option maxHeartbeats 1000000 in
/-- The keycode map does not depend on the start position: the start
coordinates only flow into the key rectangles, never into the map. -/
lemma glfwKeyToIndex_const (sx sy : ℚ) :
    (initKeyboardLayout sx sy).glfwKeyToIndex =
      (initKeyboardLayout 0 0).glfwKeyToIndex := by
  have h : MapEq (initKeyboardLayout sx sy) (initKeyboardLayout 0 0) := by
    unfold initKeyboardLayout
    apply MapEq_addKey  -- PgDn
    apply MapEq_addKey  -- End
    apply MapEq_addKey  -- Del
    apply MapEq_addKey  -- PgUp
    apply MapEq_addKey  -- Home
    apply MapEq_addKey  -- Ins
    apply MapEq_addKey  -- Up
    apply MapEq_addKey  -- Right
    apply MapEq_addKey  -- Down
    apply MapEq_addKey  -- Left
    apply MapEq_addKey  -- Ctrl
    apply MapEq_addKey  -- Alt
    apply MapEq_addKey  -- Space
    apply MapEq_addKey  -- Alt
    apply MapEq_addKey  -- Ctrl
    apply MapEq_addKey  -- right Shift
    apply MapEq_addKeysRow  -- row5
    apply MapEq_addKey  -- left Shift
    apply MapEq_addKeysRow  -- row4
    apply MapEq_addKeysRow  -- row3
    apply MapEq_addKey  -- Backspace
    apply MapEq_addKeysRow  -- row2
    apply MapEq_addKeysRow  -- fRow
    apply MapEq_addKey  -- Esc
    exact ⟨rfl, rfl⟩
  exact h.1

set_option maxRecDepth 100000 in
set_option maxHeartbeats 1000000 in
/-- Slot indices stored in the full-board keycode map are pairwise
distinct. -/
lemma initKeyboardLayout_snd_nodup (sx sy : ℚ) :
    ((initKeyboardLayout sx sy).glfwKeyToIndex.map Prod.snd).Nodup := by
  rw [glfwKeyToIndex_const]
  decide

/-- In-place update of `keyboardKeys[index]` (std::vector indexing). -/
def modifyIdx : List Key → Nat → (Key → Key) → List Key
  | [], _, _ => []
  | k :: rest, 0, f => f k :: rest
  | k :: rest, n+1, f => k :: modifyIdx rest n f

/-- Translation of `keyCallback` (full_board.cpp lines 494-508; the
variant at part_000 lines 364-378 adds an `index < size` bounds check
that never fires, since every stored index points at an existing slot).
Returns the new globals together with the number of detached sound
threads spawned. -/
def keyCallback (st : LayoutState) (key action : Int) : LayoutState × Nat :=
  match mapLookup st.glfwKeyToIndex key with
  | some index =>
      if action = GLFW_PRESS then
        (⟨modifyIdx st.keyboardKeys index (fun k => { k with isPressed := true }),
           st.glfwKeyToIndex⟩, 1)
      else if action = GLFW_RELEASE then
        (⟨modifyIdx st.keyboardKeys index (fun k => { k with isPressed := false }),
           st.glfwKeyToIndex⟩, 0)
      else (st, 0)
  | none => (st, 0)

/-- C8: a key event whose keycode is not in the lookup map is ignored:
the state is returned unchanged (no `isPressed`, `pressAnim` or
`keycapRemoved` of any key changes) and no sound thread is spawned. -/
theorem keyCallback_unmapped_ignored (st : LayoutState) (key action : Int)
    (h : mapLookup st.glfwKeyToIndex key = none) :
    keyCallback st key action = (st, 0) := by
  simp [keyCallback, h]

theorem keyCallback_unmapped_ignored_witness :
    mapLookup (initKeyboardLayout 50 50).glfwKeyToIndex 999 = none ∧
      keyCallback (initKeyboardLayout 50 50) 999 GLFW_PRESS =
        (initKeyboardLayout 50 50, 0) :=
  ⟨by decide, keyCallback_unmapped_ignored _ 999 GLFW_PRESS (by decide)⟩

/-- C10: a key event whose action is neither GLFW_PRESS nor
GLFW_RELEASE (for instance GLFW_REPEAT) changes no key state and spawns
no sound thread. -/
theorem keyCallback_other_action_noop (st : LayoutState) (key action : Int)
    (h1 : action ≠ GLFW_PRESS) (h2 : action ≠ GLFW_RELEASE) :
    keyCallback st key action = (st, 0) := by
  unfold keyCallback
  cases mapLookup st.glfwKeyToIndex key with
  | none => rfl
  | some index => simp [if_neg h1, if_neg h2]

theorem keyCallback_other_action_noop_witness :
    GLFW_REPEAT ≠ GLFW_PRESS ∧ GLFW_REPEAT ≠ GLFW_RELEASE ∧
      keyCallback (initKeyboardLayout 50 50) 65 GLFW_REPEAT =
        (initKeyboardLayout 50 50, 0) :=
  ⟨by decide, by decide,
    keyCallback_other_action_noop _ 65 GLFW_REPEAT (by decide) (by decide)⟩



/-- Closed-interval cursor hit test used by all three pointer callbacks
(full_board.cpp lines 522-523, 545-546, 562-563):
`pos ≤ cursor ≤ pos + size` on both axes. -/
def hitTest (k : Key) (xpos ypos : ℚ) : Bool :=
  decide (xpos ≥ k.posX) && decide (xpos ≤ k.posX + k.sizeX) &&
    decide (ypos ≥ k.posY) && decide (ypos ≤ k.posY + k.sizeY)

/-- The mouse-relevant globals: `keyboardKeys` and `g_leftMouseDown`. -/
structure MouseState where
  keys : List Key
  leftDown : Bool
  deriving DecidableEq

/-- The left-press loop of `mouse_button_callback` (full_board.cpp lines
521-531): press the first key under the cursor, spawn one sound thread,
and `break`; returns the keys and the number of threads spawned. -/
def pressFirstHit : List Key → ℚ → ℚ → List Key × Nat
  | [], _, _ => ([], 0)
  | k :: rest, x, y =>
    if hitTest k x y then ({ k with isPressed := true } :: rest, 1)
    else
      let r := pressFirstHit rest x y
      (k :: r.1, r.2)

/-- The right-press loop of `mouse_button_callback` (full_board.cpp lines
544-549): toggle `keycapRemoved` of the first key under the cursor and
`break`. -/
def toggleFirstHit : List Key → ℚ → ℚ → List Key
  | [], _, _ => []
  | k :: rest, x, y =>
    if hitTest k x y then { k with keycapRemoved := !k.keycapRemoved } :: rest
    else k :: toggleFirstHit rest x y

/-- Translation of `mouse_button_callback` (full_board.cpp lines
513-553), with the cursor position read by `glfwGetCursorPos` passed as
arguments.  Returns the new globals and the number of sound threads
spawned. -/
def mouse_button_callback (st : MouseState) (xpos ypos : ℚ)
    (button action : Int) : MouseState × Nat :=
  if button = GLFW_MOUSE_BUTTON_LEFT then
    if action = GLFW_PRESS then
      let r := pressFirstHit st.keys xpos ypos
      (⟨r.1, true⟩, r.2)
    else if action = GLFW_RELEASE then
      (⟨st.keys.map (fun k => { k with isPressed := false }), false⟩, 0)
    else (st, 0)
  else if button = GLFW_MOUSE_BUTTON_RIGHT then
    if action = GLFW_PRESS then
      (⟨toggleFirstHit st.keys xpos ypos, st.leftDown⟩, 0)
    else (st, 0)
  else (st, 0)

/-- One iteration of the drag loop of `cursor_position_callback`
(full_board.cpp lines 561-575): a key under the cursor is pressed (with
a sound thread spawned only on the false→true transition), every other
key is released. -/
def cursorStep (x y : ℚ) (k : Key) : Key × Nat :=
  if hitTest k x y then
    if !k.isPressed then ({ k with isPressed := true }, 1) else (k, 0)
  else ({ k with isPressed := false }, 0)

/-- Translation of `cursor_position_callback` (full_board.cpp lines
558-577).  The second component lists, slot by slot, the number of sound
threads spawned during that slot's loop iteration. -/
def cursor_position_callback (st : MouseState) (x y : ℚ) :
    MouseState × List Nat :=
  if st.leftDown then
    (⟨st.keys.map (fun k => (cursorStep x y k).1), st.leftDown⟩,
      st.keys.map (fun k => (cursorStep x y k).2))
  else (st, List.replicate st.keys.length 0)

/-- Index of the first key whose rectangle contains the cursor. -/
def firstHitIdx : List Key → ℚ → ℚ → Option Nat
  | [], _, _ => none
  | k :: rest, x, y =>
    if hitTest k x y then some 0 else (firstHitIdx rest x y).map (· + 1)

lemma hitTest_setPressed (k : Key) (b : Bool) (x y : ℚ) :
    hitTest { k with isPressed := b } x y = hitTest k x y := rfl

lemma hitTest_setKeycap (k : Key) (b : Bool) (x y : ℚ) :
    hitTest { k with keycapRemoved := b } x y = hitTest k x y := rfl

lemma setPressed_self (k : Key) :
    ({ k with isPressed := k.isPressed } : Key) = k := rfl

lemma cursorStep_fst (x y : ℚ) (k : Key) :
    (cursorStep x y k).1 = { k with isPressed := hitTest k x y } := by
  unfold cursorStep
  by_cases hh : hitTest k x y
  · by_cases hp : k.isPressed
    · simp only [hh, hp, if_true, Bool.not_true, Bool.false_eq_true, if_false]
      rw [← hp, setPressed_self]
    · simp only [hh, if_true]
      simp [hp]
  · simp only [Bool.not_eq_true] at hh
    simp [hh]

lemma cursorStep_snd (x y : ℚ) (k : Key) :
    (cursorStep x y k).2 = if hitTest k x y && !k.isPressed then 1 else 0 := by
  unfold cursorStep
  by_cases hh : hitTest k x y <;> by_cases hp : k.isPressed <;> simp [hh, hp]

lemma setKeycap_self (k : Key) :
    ({ k with keycapRemoved := k.keycapRemoved } : Key) = k := rfl

lemma pressFirstHit_get? (x y : ℚ) : ∀ (keys : List Key) (i : Nat) (k : Key),
    keys.get? i = some k →
    (pressFirstHit keys x y).1.get? i =
      some (if firstHitIdx keys x y = some i then { k with isPressed := true } else k) := by
  intro keys
  induction keys with
  | nil => intro i k h; simp at h
  | cons a rest ih =>
    intro i k hk
    by_cases hh : hitTest a x y
    · simp only [pressFirstHit, firstHitIdx, hh, if_true]
      cases i with
      | zero =>
        simp only [List.get?] at hk
        injection hk with hk
        subst hk
        simp
      | succ n =>
        simp only [List.get?] at hk ⊢
        rw [if_neg (by simp : (some 0 : Option Nat) ≠ some (n + 1))]
        exact hk
    · simp only [pressFirstHit, firstHitIdx, hh, Bool.false_eq_true, if_false]
      cases i with
      | zero =>
        simp only [List.get?] at hk
        injection hk with hk
        subst hk
        cases hr : firstHitIdx rest x y <;> simp [hr]
      | succ n =>
        simp only [List.get?] at hk ⊢
        rw [ih n k hk]
        cases hr : firstHitIdx rest x y <;> simp [hr]

lemma toggleFirstHit_get? (x y : ℚ) : ∀ (keys : List Key) (i : Nat) (k : Key),
    keys.get? i = some k →
    (toggleFirstHit keys x y).get? i =
      some (if firstHitIdx keys x y = some i then
        { k with keycapRemoved := !k.keycapRemoved } else k) := by
  intro keys
  induction keys with
  | nil => intro i k h; simp at h
  | cons a rest ih =>
    intro i k hk
    by_cases hh : hitTest a x y
    · simp only [toggleFirstHit, firstHitIdx, hh, if_true]
      cases i with
      | zero =>
        simp only [List.get?] at hk
        injection hk with hk
        subst hk
        simp
      | succ n =>
        simp only [List.get?] at hk ⊢
        rw [if_neg (by simp : (some 0 : Option Nat) ≠ some (n + 1))]
        exact hk
    · simp only [toggleFirstHit, firstHitIdx, hh, Bool.false_eq_true, if_false]
      cases i with
      | zero =>
        simp only [List.get?] at hk
        injection hk with hk
        subst hk
        cases hr : firstHitIdx rest x y <;> simp [hr]
      | succ n =>
        simp only [List.get?] at hk ⊢
        rw [ih n k hk]
        cases hr : firstHitIdx rest x y <;> simp [hr]

lemma toggleFirstHit_involutive (x y : ℚ) : ∀ keys : List Key,
    toggleFirstHit (toggleFirstHit keys x y) x y = keys := by
  intro keys
  induction keys with
  | nil => rfl
  | cons a rest ih =>
    by_cases hh : hitTest a x y
    · simp only [toggleFirstHit, hh, if_true, hitTest_setKeycap, Bool.not_not]
    · simp only [toggleFirstHit, hh, Bool.false_eq_true, if_false]
      rw [ih]

lemma toggleFirstHit_isPressed (x y : ℚ) : ∀ (keys : List Key) (i : Nat),
    ((toggleFirstHit keys x y).get? i).map Key.isPressed =
      (keys.get? i).map Key.isPressed := by
  intro keys
  induction keys with
  | nil => intro i; rfl
  | cons a rest ih =>
    intro i
    by_cases hh : hitTest a x y
    · simp only [toggleFirstHit, hh, if_true]
      cases i <;> simp
    · simp only [toggleFirstHit, hh, Bool.false_eq_true, if_false]
      cases i with
      | zero => simp
      | succ n => simp only [List.get?]; exact ih n

/-- Concrete 10×10 key at the origin, used in counterexamples and
witnesses. -/
def overlapKey : Key :=
  { label := "K", posX := 0, posY := 0, sizeX := 10, sizeY := 10 }

/-- C5 (amended): hit testing in all three pointer interactions uses
closed-interval containment; pointer-down and the right-click toggle
affect only the first matching key in slot order (first-match-wins),
while pointer-move with the button held is not first-match-wins: it
presses every key whose rectangle contains the cursor and releases
every other key. -/
theorem pointer_hitTest_spec :
    (∀ (k : Key) (x y : ℚ), hitTest k x y = true ↔
        (k.posX ≤ x ∧ x ≤ k.posX + k.sizeX ∧ k.posY ≤ y ∧ y ≤ k.posY + k.sizeY)) ∧
    (∀ (st : MouseState) (x y : ℚ) (i : Nat) (k : Key), st.keys.get? i = some k →
        ((mouse_button_callback st x y GLFW_MOUSE_BUTTON_LEFT GLFW_PRESS).1.keys.get? i =
          some (if firstHitIdx st.keys x y = some i then { k with isPressed := true } else k)) ∧
        ((mouse_button_callback st x y GLFW_MOUSE_BUTTON_RIGHT GLFW_PRESS).1.keys.get? i =
          some (if firstHitIdx st.keys x y = some i then
            { k with keycapRemoved := !k.keycapRemoved } else k))) ∧
    (∀ (st : MouseState) (x y : ℚ) (i : Nat) (k : Key), st.leftDown = true →
        st.keys.get? i = some k →
        (cursor_position_callback st x y).1.keys.get? i =
          some { k with isPressed := hitTest k x y }) := by
  refine ⟨?_, ?_, ?_⟩
  · intro k x y
    simp [hitTest, and_assoc]
  · intro st x y i k hk
    exact ⟨pressFirstHit_get? x y st.keys i k hk, toggleFirstHit_get? x y st.keys i k hk⟩
  · intro st x y i k hld hk
    simp only [cursor_position_callback, hld, if_true]
    rw [List.get?_map, hk]
    simp [cursorStep_fst]

theorem pointer_hitTest_spec_witness :
    ((⟨[overlapKey], true⟩ : MouseState).keys.get? 0 = some overlapKey) ∧
    ((⟨[overlapKey], true⟩ : MouseState).leftDown = true) ∧
    ((mouse_button_callback ⟨[overlapKey], true⟩ 5 5 GLFW_MOUSE_BUTTON_LEFT
          GLFW_PRESS).1.keys.get? 0 =
        some (if firstHitIdx [overlapKey] 5 5 = some 0 then
          { overlapKey with isPressed := true } else overlapKey)) ∧
    ((cursor_position_callback ⟨[overlapKey], true⟩ 5 5).1.keys.get? 0 =
        some { overlapKey with isPressed := hitTest overlapKey 5 5 }) :=
  ⟨rfl, rfl, (pointer_hitTest_spec.2.1 ⟨[overlapKey], true⟩ 5 5 0 overlapKey rfl).1,
    pointer_hitTest_spec.2.2 ⟨[overlapKey], true⟩ 5 5 0 overlapKey rfl rfl⟩

/-- C5 counterexample: with two keys occupying the same rectangle and
the cursor inside both, a pointer-move with the button held affects the
second matching key as well — its `isPressed` flips to true and a sound
thread is spawned for each matching key — so the pointer-move
interaction is not first-match-wins. -/
theorem cursor_move_not_first_match_only :
    hitTest overlapKey 5 5 = true ∧
    ((cursor_position_callback ⟨[overlapKey, overlapKey], true⟩ 5 5).1.keys.get? 1).map
        Key.isPressed = some true ∧
    (cursor_position_callback ⟨[overlapKey, overlapKey], true⟩ 5 5).2 = [1, 1] := by
  have hh : hitTest overlapKey 5 5 = true := by
    simp [hitTest, overlapKey]
    norm_num
  have hh2 := hh
  simp only [overlapKey] at hh2
  refine ⟨hh, ?_, ?_⟩ <;>
    simp [cursor_position_callback, cursorStep, hh2, overlapKey]

/-- C9: right-clicking the same cursor position twice restores every
key's `keycapRemoved` to its original value, and a single right-click
toggle leaves every key's `isPressed` unchanged. -/
theorem rightClick_toggle_involutive (st : MouseState) (x y : ℚ) :
    ((mouse_button_callback
        (mouse_button_callback st x y GLFW_MOUSE_BUTTON_RIGHT GLFW_PRESS).1
        x y GLFW_MOUSE_BUTTON_RIGHT GLFW_PRESS).1.keys = st.keys) ∧
    (∀ i : Nat,
      ((mouse_button_callback st x y GLFW_MOUSE_BUTTON_RIGHT GLFW_PRESS).1.keys.get? i).map
          Key.isPressed = (st.keys.get? i).map Key.isPressed) :=
  ⟨toggleFirstHit_involutive x y st.keys, fun i => toggleFirstHit_isPressed x y st.keys i⟩

/-- Final state after a sequence of pointer-move events, each processed
by `cursor_position_callback`. -/
def dragFinal : MouseState → List (ℚ × ℚ) → MouseState
  | st, [] => st
  | st, p :: rest => dragFinal (cursor_position_callback st p.1 p.2).1 rest

/-- Number of sound threads spawned for slot `i` over a sequence of
pointer-move events. -/
def dragActivations : MouseState → Nat → List (ℚ × ℚ) → Nat
  | _, _, [] => 0
  | st, i, p :: rest =>
      ((cursor_position_callback st p.1 p.2).2.get? i).getD 0 +
        dragActivations (cursor_position_callback st p.1 p.2).1 i rest

lemma dragFinal_append (ps qs : List (ℚ × ℚ)) : ∀ st,
    dragFinal st (ps ++ qs) = dragFinal (dragFinal st ps) qs := by
  induction ps with
  | nil => intro st; rfl
  | cons p rest ih =>
    intro st
    simp only [List.cons_append, dragFinal]
    exact ih _

lemma dragActivations_append (i : Nat) (ps qs : List (ℚ × ℚ)) : ∀ st,
    dragActivations st i (ps ++ qs) =
      dragActivations st i ps + dragActivations (dragFinal st ps) i qs := by
  induction ps with
  | nil => intro st; simp [dragActivations, dragFinal]
  | cons p rest ih =>
    intro st
    rw [List.cons_append]
    simp only [dragActivations, dragFinal]
    rw [ih, Nat.add_assoc]

lemma cursorCb_step (st : MouseState) (x y : ℚ) (h : st.leftDown = true)
    (i : Nat) (k : Key) (hk : st.keys.get? i = some k) :
    (cursor_position_callback st x y).1.leftDown = true ∧
    (cursor_position_callback st x y).1.keys.get? i =
      some { k with isPressed := hitTest k x y } ∧
    ((cursor_position_callback st x y).2.get? i).getD 0 =
      (if hitTest k x y && !k.isPressed then 1 else 0) := by
  refine ⟨by simp [cursor_position_callback, h], ?_, ?_⟩
  · simp only [cursor_position_callback, h, if_true]
    rw [List.get?_map, hk]
    simp [cursorStep_fst]
  · simp only [cursor_position_callback, h, if_true]
    rw [List.get?_map, hk]
    simp [cursorStep_snd]

lemma drag_miss_phase (i : Nat) (k0 : Key) :
    ∀ (ps : List (ℚ × ℚ)) (st : MouseState), st.leftDown = true →
    st.keys.get? i = some { k0 with isPressed := false } →
    (∀ p ∈ ps, hitTest k0 p.1 p.2 = false) →
    (dragFinal st ps).leftDown = true ∧
    (dragFinal st ps).keys.get? i = some { k0 with isPressed := false } ∧
    dragActivations st i ps = 0 := by
  intro ps
  induction ps with
  | nil => intro st h hk _; exact ⟨h, hk, rfl⟩
  | cons p rest ih =>
    intro st h hk hmiss
    obtain ⟨h1, h2, h3⟩ := cursorCb_step st p.1 p.2 h i _ hk
    have hhit : hitTest ({ k0 with isPressed := false } : Key) p.1 p.2 = false := by
      rw [hitTest_setPressed]
      exact hmiss p (List.mem_cons_self p rest)
    rw [hhit] at h2 h3
    have h2' : (cursor_position_callback st p.1 p.2).1.keys.get? i =
        some ({ k0 with isPressed := false } : Key) := h2
    have hrest := ih (cursor_position_callback st p.1 p.2).1 h1 h2'
      (fun q hq => hmiss q (List.mem_cons_of_mem p hq))
    simp only [dragFinal, dragActivations]
    refine ⟨hrest.1, hrest.2.1, ?_⟩
    rw [h3, hrest.2.2]
    simp

lemma drag_hold_phase (i : Nat) (k0 : Key) :
    ∀ (ps : List (ℚ × ℚ)) (st : MouseState), st.leftDown = true →
    st.keys.get? i = some { k0 with isPressed := true } →
    (∀ p ∈ ps, hitTest k0 p.1 p.2 = true) →
    (dragFinal st ps).leftDown = true ∧
    (dragFinal st ps).keys.get? i = some { k0 with isPressed := true } ∧
    dragActivations st i ps = 0 := by
  intro ps
  induction ps with
  | nil => intro st h hk _; exact ⟨h, hk, rfl⟩
  | cons p rest ih =>
    intro st h hk hhit
    obtain ⟨h1, h2, h3⟩ := cursorCb_step st p.1 p.2 h i _ hk
    have hh : hitTest ({ k0 with isPressed := true } : Key) p.1 p.2 = true := by
      rw [hitTest_setPressed]
      exact hhit p (List.mem_cons_self p rest)
    rw [hh] at h2 h3
    have h2' : (cursor_position_callback st p.1 p.2).1.keys.get? i =
        some ({ k0 with isPressed := true } : Key) := h2
    have hrest := ih (cursor_position_callback st p.1 p.2).1 h1 h2'
      (fun q hq => hhit q (List.mem_cons_of_mem p hq))
    simp only [dragFinal, dragActivations]
    refine ⟨hrest.1, hrest.2.1, ?_⟩
    rw [h3, hrest.2.2]
    simp

lemma drag_track (i : Nat) (k0 : Key) :
    ∀ (ps : List (ℚ × ℚ)) (st : MouseState) (b : Bool), st.leftDown = true →
    st.keys.get? i = some { k0 with isPressed := b } →
    ∃ c : Bool, (dragFinal st ps).keys.get? i = some { k0 with isPressed := c } := by
  intro ps
  induction ps with
  | nil => intro st b h hk; exact ⟨b, hk⟩
  | cons p rest ih =>
    intro st b h hk
    obtain ⟨h1, h2, _⟩ := cursorCb_step st p.1 p.2 h i _ hk
    have h2' : (cursor_position_callback st p.1 p.2).1.keys.get? i =
        some ({ k0 with isPressed :=
          (hitTest ({ k0 with isPressed := b } : Key) p.1 p.2) } : Key) := h2
    simp only [dragFinal]
    exact ih _ _ h1 h2'

/-- C6: a drag with the button held whose positions first stay outside
key Y (starting from X's rectangle) and then enter and stay inside Y —
with Y initially unpressed and the cursor never over X once it is
inside Y — ends with Y pressed and X released, and spawns exactly one
sound thread for Y over the whole sequence. -/
theorem drag_across_keys (st : MouseState) (ix iy : Nat) (kx ky : Key)
    (hdown : st.leftDown = true)
    (hx : st.keys.get? ix = some kx) (hy : st.keys.get? iy = some ky)
    (hyUp : ky.isPressed = false)
    (pre : List (ℚ × ℚ)) (q : ℚ × ℚ) (qs : List (ℚ × ℚ))
    (hpre : ∀ p ∈ pre, hitTest ky p.1 p.2 = false)
    (hpostY : ∀ p ∈ q :: qs, hitTest ky p.1 p.2 = true)
    (hpostX : ∀ p ∈ q :: qs, hitTest kx p.1 p.2 = false) :
    ((dragFinal st (pre ++ q :: qs)).keys.get? iy).map Key.isPressed = some true ∧
    ((dragFinal st (pre ++ q :: qs)).keys.get? ix).map Key.isPressed = some false ∧
    dragActivations st iy (pre ++ q :: qs) = 1 := by
  have hy0 : st.keys.get? iy = some ({ ky with isPressed := false } : Key) := by
    rw [hy, ← hyUp, setPressed_self]
  have hx0 : st.keys.get? ix = some ({ kx with isPressed := kx.isPressed } : Key) := by
    rw [hx, setPressed_self]
  -- phase 1: traverse `pre`; Y stays unpressed and silent, X keeps its rectangle
  obtain ⟨hld1, hY1, hA1⟩ := drag_miss_phase iy ky pre st hdown hy0 hpre
  obtain ⟨b1, hX1⟩ := drag_track ix kx pre st kx.isPressed hdown hx0
  -- the event `q` presses Y (one sound thread) and releases X
  obtain ⟨hld2, hYq, hSq⟩ := cursorCb_step (dragFinal st pre) q.1 q.2 hld1 iy _ hY1
  have hYhit : hitTest ({ ky with isPressed := false } : Key) q.1 q.2 = true := by
    rw [hitTest_setPressed]
    exact hpostY q (List.mem_cons_self q qs)
  rw [hYhit] at hYq hSq
  have hYq' : (cursor_position_callback (dragFinal st pre) q.1 q.2).1.keys.get? iy =
      some ({ ky with isPressed := true } : Key) := hYq
  have hSq' : ((cursor_position_callback (dragFinal st pre) q.1 q.2).2.get? iy).getD 0 = 1 := by
    rw [hSq]
    simp
  obtain ⟨_, hXq, _⟩ := cursorCb_step (dragFinal st pre) q.1 q.2 hld1 ix _ hX1
  have hXhit : hitTest ({ kx with isPressed := b1 } : Key) q.1 q.2 = false := by
    rw [hitTest_setPressed]
    exact hpostX q (List.mem_cons_self q qs)
  rw [hXhit] at hXq
  have hXq' : (cursor_position_callback (dragFinal st pre) q.1 q.2).1.keys.get? ix =
      some ({ kx with isPressed := false } : Key) := hXq
  -- phase 3: traverse `qs`; Y stays pressed and silent, X stays released
  obtain ⟨hld3, hY3, hA3⟩ := drag_hold_phase iy ky qs _ hld2 hYq'
    (fun p hp => hpostY p (List.mem_cons_of_mem q hp))
  obtain ⟨_, hX3, _⟩ := drag_miss_phase ix kx qs _ hld2 hXq'
    (fun p hp => hpostX p (List.mem_cons_of_mem q hp))
  refine ⟨?_, ?_, ?_⟩
  · rw [dragFinal_append]
    simp only [dragFinal]
    rw [hY3]
    rfl
  · rw [dragFinal_append]
    simp only [dragFinal]
    rw [hX3]
    rfl
  · rw [dragActivations_append, hA1]
    simp only [dragActivations]
    rw [hSq', hA3]

/-- Concrete 10×10 key at x = 20, disjoint from `overlapKey`. -/
def farKey : Key :=
  { label := "Y", posX := 20, posY := 0, sizeX := 10, sizeY := 10 }

lemma farKey_miss_at_5 : hitTest farKey 5 5 = false := by
  simp [hitTest, farKey]
  norm_num

lemma farKey_hit_at_25 : hitTest farKey 25 5 = true := by
  simp [hitTest, farKey]
  norm_num

lemma overlapKey_miss_at_25 : hitTest overlapKey 25 5 = false := by
  simp [hitTest, overlapKey]
  norm_num

theorem drag_across_keys_witness :
    ((⟨[overlapKey, farKey], true⟩ : MouseState).leftDown = true) ∧
    ((⟨[overlapKey, farKey], true⟩ : MouseState).keys.get? 0 = some overlapKey) ∧
    ((⟨[overlapKey, farKey], true⟩ : MouseState).keys.get? 1 = some farKey) ∧
    farKey.isPressed = false ∧
    (((dragFinal ⟨[overlapKey, farKey], true⟩
          ([((5:ℚ), (5:ℚ))] ++ ((25:ℚ), (5:ℚ)) :: [])).keys.get? 1).map Key.isPressed =
        some true ∧
      ((dragFinal ⟨[overlapKey, farKey], true⟩
          ([((5:ℚ), (5:ℚ))] ++ ((25:ℚ), (5:ℚ)) :: [])).keys.get? 0).map Key.isPressed =
        some false ∧
      dragActivations ⟨[overlapKey, farKey], true⟩ 1
          ([((5:ℚ), (5:ℚ))] ++ ((25:ℚ), (5:ℚ)) :: []) = 1) :=
  ⟨rfl, rfl, rfl, rfl,
    drag_across_keys ⟨[overlapKey, farKey], true⟩ 0 1 overlapKey farKey rfl rfl rfl rfl
      [((5:ℚ), (5:ℚ))] ((25:ℚ), (5:ℚ)) []
      (by
        intro p hp
        simp only [List.mem_singleton] at hp
        subst hp
        exact farKey_miss_at_5)
      (by
        intro p hp
        simp only [List.mem_singleton] at hp
        subst hp
        exact farKey_hit_at_25)
      (by
        intro p hp
        simp only [List.mem_singleton] at hp
        subst hp
        exact overlapKey_miss_at_25)⟩


namespace WN

/-- Constant from part_000 line 23. -/
def KEY_WIDTH : ℚ := 60

/-- Constant from part_000 line 24. -/
def KEY_HEIGHT : ℚ := 60

/-- Constant from part_000 line 25. -/
def KEY_SPACING : ℚ := 10

/-- The layout globals of part_000: `keyboardKeys` and
`glfwKeyToIndex`. -/
structure KB where
  keyboardKeys : List Key
  glfwKeyToIndex : List (Int × Nat)
  deriving DecidableEq

/-- One loop iteration of `initKeyboard` (part_000 lines 283-357): push
a key of the uniform size at (x, y) and record keycode ↦ new index
(`keyboardKeys.size() - 1` after the push). -/
def pushKey (st : KB) (label : String) (x y : ℚ) (glfwKey : Int) : KB :=
  let keys := st.keyboardKeys ++
    [{ label := label, posX := x, posY := y, sizeX := KEY_WIDTH, sizeY := KEY_HEIGHT }]
  ⟨keys, mapAssign st.glfwKeyToIndex glfwKey (keys.length - 1)⟩

/-- One row loop of `initKeyboard`: add the (label, keycode) pairs from
`startX`, advancing x by `KEY_WIDTH + KEY_SPACING` per key. -/
def addRowFrom : KB → List (String × Int) → ℚ → ℚ → KB
  | st, [], _, _ => st
  | st, (lab, code) :: rest, x, y =>
      addRowFrom (pushKey st lab x y code) rest (x + KEY_WIDTH + KEY_SPACING) y

/-- F-key row of part_000 line 282 (GLFW_KEY_F1..F12 = 290..301). -/
def funcKeysRow : List (String × Int) :=
  [("F1", 290), ("F2", 291), ("F3", 292), ("F4", 293), ("F5", 294), ("F6", 295),
   ("F7", 296), ("F8", 297), ("F9", 298), ("F10", 299), ("F11", 300), ("F12", 301)]

/-- Number row of part_000 line 298; digits map to their ASCII codes
(the source computes `GLFW_KEY_1 + (c - 49)` with the special case
`0 ↦ GLFW_KEY_0 = 48`, which is the same). -/
def numRow : List (String × Int) :=
  [("1", 49), ("2", 50), ("3", 51), ("4", 52), ("5", 53), ("6", 54), ("7", 55),
   ("8", 56), ("9", 57), ("0", 48)]

/-- QWERTY row of part_000 line 317 (`GLFW_KEY_A + (c - 65)` = ASCII). -/
def qwertyRow : List (String × Int) :=
  [("Q", 81), ("W", 87), ("E", 69), ("R", 82), ("T", 84), ("Y", 89), ("U", 85),
   ("I", 73), ("O", 79), ("P", 80)]

/-- Home row of part_000 line 332. -/
def homeRow : List (String × Int) :=
  [("A", 65), ("S", 83), ("D", 68), ("F", 70), ("G", 71), ("H", 72), ("J", 74),
   ("K", 75), ("L", 76)]

/-- Bottom letter row of part_000 line 347. -/
def zRow : List (String × Int) :=
  [("Z", 90), ("X", 88), ("C", 67), ("V", 86), ("B", 66), ("N", 78), ("M", 77)]

/-- Translation of `initKeyboard` (part_000 lines 273-358); the screen
size parameters of the source are never read by the layout code. -/
def initKeyboard : KB :=
  let st : KB := ⟨[], []⟩
  -- Row 0: function keys F1-F12
  let y0 := KEY_SPACING
  let st := addRowFrom st funcKeysRow KEY_SPACING y0
  -- Row 1: number keys 1-0
  let y1 := y0 + KEY_HEIGHT + KEY_SPACING
  let st := addRowFrom st numRow KEY_SPACING y1
  -- Row 2: QWERTYUIOP
  let y2 := y1 + KEY_HEIGHT + KEY_SPACING
  let st := addRowFrom st qwertyRow KEY_SPACING y2
  -- Row 3: ASDFGHJKL, start-x offset by (KEY_WIDTH + KEY_SPACING) / 2
  let y3 := y2 + KEY_HEIGHT + KEY_SPACING
  let st := addRowFrom st homeRow (KEY_SPACING + (KEY_WIDTH + KEY_SPACING) / 2) y3
  -- Row 4: ZXCVBNM, start-x offset by KEY_WIDTH + KEY_SPACING
  let y4 := y3 + KEY_HEIGHT + KEY_SPACING
  let st := addRowFrom st zRow (KEY_SPACING + (KEY_WIDTH + KEY_SPACING)) y4
  st

/-- The keys a row loop appends: one key per table entry, left to
right, x advancing by `KEY_WIDTH + KEY_SPACING`. -/
def rowKeys : List (String × Int) → ℚ → ℚ → List Key
  | [], _, _ => []
  | (lab, _) :: rest, x, y =>
      { label := lab, posX := x, posY := y,
        sizeX := KEY_WIDTH, sizeY := KEY_HEIGHT } :: rowKeys rest (x + KEY_WIDTH + KEY_SPACING) y

lemma addRowFrom_keys : ∀ (row : List (String × Int)) (st : KB) (x y : ℚ),
    (addRowFrom st row x y).keyboardKeys = st.keyboardKeys ++ rowKeys row x y := by
  intro row
  induction row with
  | nil => intro st x y; simp [addRowFrom, rowKeys]
  | cons p rest ih =>
    obtain ⟨lab, code⟩ := p
    intro st x y
    simp only [addRowFrom, rowKeys, ih, pushKey, List.append_assoc, List.singleton_append]

lemma rowKeys_length (y : ℚ) : ∀ (row : List (String × Int)) (x : ℚ),
    (rowKeys row x y).length = row.length := by
  intro row
  induction row with
  | nil => intro x; rfl
  | cons p rest ih =>
    obtain ⟨lab, code⟩ := p
    intro x
    simp [rowKeys, ih]

lemma rowKeys_get? (y : ℚ) : ∀ (row : List (String × Int)) (x : ℚ) (j : Nat),
    (rowKeys row x y).get? j = (row.get? j).map (fun p =>
      { label := p.1, posX := x + j * (KEY_WIDTH + KEY_SPACING), posY := y,
        sizeX := KEY_WIDTH, sizeY := KEY_HEIGHT }) := by
  intro row
  induction row with
  | nil => intro x j; rfl
  | cons hd rest ih =>
    obtain ⟨lab, code⟩ := hd
    intro x j
    cases j with
    | zero => simp [rowKeys]
    | succ n =>
      simp only [rowKeys, List.get?, ih]
      cases h : rest.get? n with
      | none => simp [h]
      | some p =>
        simp only [h, Option.map_some']
        congr 2
        push_cast
        ring


/-- The key list of `initKeyboard`, decomposed row by row. -/
lemma initKeyboard_keys_decomp :
    initKeyboard.keyboardKeys =
      (((rowKeys funcKeysRow KEY_SPACING KEY_SPACING ++
        rowKeys numRow KEY_SPACING (KEY_SPACING + KEY_HEIGHT + KEY_SPACING)) ++
        rowKeys qwertyRow KEY_SPACING
          (KEY_SPACING + KEY_HEIGHT + KEY_SPACING + KEY_HEIGHT + KEY_SPACING)) ++
        rowKeys homeRow (KEY_SPACING + (KEY_WIDTH + KEY_SPACING) / 2)
          (KEY_SPACING + KEY_HEIGHT + KEY_SPACING + KEY_HEIGHT + KEY_SPACING +
            KEY_HEIGHT + KEY_SPACING)) ++
        rowKeys zRow (KEY_SPACING + (KEY_WIDTH + KEY_SPACING))
          (KEY_SPACING + KEY_HEIGHT + KEY_SPACING + KEY_HEIGHT + KEY_SPACING +
            KEY_HEIGHT + KEY_SPACING + KEY_HEIGHT + KEY_SPACING) := by
  simp only [initKeyboard, addRowFrom_keys, List.nil_append]

end WN


/-- C7 counterexample: in the part_000 layout the home row (A at slot
32) starts at `KEY_SPACING + (KEY_WIDTH + KEY_SPACING) / 2`, an offset
of 35 relative to the QWERTY row above it (Q at slot 22, x =
KEY_SPACING) — not half a key-width (which would be 30). -/
theorem home_row_offset_cex :
    ((WN.initKeyboard.keyboardKeys.get? 22).map Key.label = some "Q") ∧
    ((WN.initKeyboard.keyboardKeys.get? 22).map Key.posX = some WN.KEY_SPACING) ∧
    ((WN.initKeyboard.keyboardKeys.get? 32).map Key.label = some "A") ∧
    ((WN.initKeyboard.keyboardKeys.get? 32).map Key.posX =
        some (WN.KEY_SPACING + (WN.KEY_WIDTH + WN.KEY_SPACING) / 2)) ∧
    WN.KEY_SPACING + (WN.KEY_WIDTH + WN.KEY_SPACING) / 2 ≠
      WN.KEY_SPACING + WN.KEY_WIDTH / 2 := by
  have hkeys := WN.initKeyboard_keys_decomp
  refine ⟨?_, ?_, ?_, ?_, ?_⟩ <;>
    first
      | (rw [hkeys]
         norm_num [WN.rowKeys, WN.funcKeysRow, WN.numRow, WN.qwertyRow,
           WN.homeRow, WN.zRow, WN.KEY_SPACING, WN.KEY_WIDTH, WN.KEY_HEIGHT])
      | (norm_num [WN.KEY_SPACING, WN.KEY_WIDTH])


/-- C7 (amended): the part_000 layout decomposes into five rows; every
row places its keys left to right at stride `KEY_WIDTH + KEY_SPACING`
from its start x; the rows above the home row start at `KEY_SPACING`
while the home row starts offset by `(KEY_WIDTH + KEY_SPACING) / 2`,
i.e. 35 pixels — half of key-width-plus-spacing, not half a key-width. -/
theorem home_row_offset_amended :
    (WN.initKeyboard.keyboardKeys =
      (((WN.rowKeys WN.funcKeysRow WN.KEY_SPACING WN.KEY_SPACING ++
        WN.rowKeys WN.numRow WN.KEY_SPACING
          (WN.KEY_SPACING + WN.KEY_HEIGHT + WN.KEY_SPACING)) ++
        WN.rowKeys WN.qwertyRow WN.KEY_SPACING
          (WN.KEY_SPACING + WN.KEY_HEIGHT + WN.KEY_SPACING + WN.KEY_HEIGHT +
            WN.KEY_SPACING)) ++
        WN.rowKeys WN.homeRow (WN.KEY_SPACING + (WN.KEY_WIDTH + WN.KEY_SPACING) / 2)
          (WN.KEY_SPACING + WN.KEY_HEIGHT + WN.KEY_SPACING + WN.KEY_HEIGHT +
            WN.KEY_SPACING + WN.KEY_HEIGHT + WN.KEY_SPACING)) ++
        WN.rowKeys WN.zRow (WN.KEY_SPACING + (WN.KEY_WIDTH + WN.KEY_SPACING))
          (WN.KEY_SPACING + WN.KEY_HEIGHT + WN.KEY_SPACING + WN.KEY_HEIGHT +
            WN.KEY_SPACING + WN.KEY_HEIGHT + WN.KEY_SPACING + WN.KEY_HEIGHT +
            WN.KEY_SPACING)) ∧
    (∀ (row : List (String × Int)) (x y : ℚ) (j : Nat),
        (WN.rowKeys row x y).get? j = (row.get? j).map (fun p =>
          { label := p.1, posX := x + j * (WN.KEY_WIDTH + WN.KEY_SPACING), posY := y,
            sizeX := WN.KEY_WIDTH, sizeY := WN.KEY_HEIGHT })) ∧
    (WN.KEY_WIDTH + WN.KEY_SPACING) / 2 = (35 : ℚ) :=
  ⟨WN.initKeyboard_keys_decomp, fun row x y j => WN.rowKeys_get? y row x j,
    by norm_num [WN.KEY_WIDTH, WN.KEY_SPACING]⟩

set_option maxRecDepth 100000 in
set_option maxHeartbeats 1000000 in
/-- Slot indices stored in the part_000 keycode map are pairwise
distinct. -/
lemma WN_initKeyboard_snd_nodup :
    ((WN.initKeyboard.glfwKeyToIndex).map Prod.snd).Nodup := by
  decide

/-- C4: in both layouts, the keycode → slot-index lookup built by layout
initialization is injective: two keycodes that resolve to the same slot
index are equal (and the Option-valued lookup gives each keycode at most
one slot). -/
theorem glfwKeyToIndex_injective :
    (∀ (sx sy : ℚ) (k1 k2 : Int) (v : Nat),
        mapLookup (initKeyboardLayout sx sy).glfwKeyToIndex k1 = some v →
        mapLookup (initKeyboardLayout sx sy).glfwKeyToIndex k2 = some v → k1 = k2) ∧
    (∀ (k1 k2 : Int) (v : Nat),
        mapLookup WN.initKeyboard.glfwKeyToIndex k1 = some v →
        mapLookup WN.initKeyboard.glfwKeyToIndex k2 = some v → k1 = k2) := by
  constructor
  · intro sx sy k1 k2 v h1 h2
    exact mapLookup_inj_of_nodup (initKeyboardLayout_snd_nodup sx sy) h1 h2
  · intro k1 k2 v h1 h2
    exact mapLookup_inj_of_nodup WN_initKeyboard_snd_nodup h1 h2

set_option maxRecDepth 100000 in
set_option maxHeartbeats 1000000 in
theorem glfwKeyToIndex_injective_witness :
    mapLookup (initKeyboardLayout 50 50).glfwKeyToIndex 256 = some 0 ∧
    mapLookup WN.initKeyboard.glfwKeyToIndex 290 = some 0 ∧
    (256 : Int) = 256 ∧ (290 : Int) = 290 :=
  ⟨by decide, by decide,
    glfwKeyToIndex_injective.1 50 50 256 256 0 (by decide) (by decide),
    glfwKeyToIndex_injective.2 290 290 0 (by decide) (by decide)⟩

end QwertyGhost
